import Mathlib

/-!
# Verification of the injectipy dependency-injection store

Shallow embedding of `src/injectipy/store.py` (class `InjectipyStore`).
Keys are an arbitrary type `κ` with decidable equality (Python keys are
strings or types).  Registered entries are either static values or
resolvers (factory callables); a resolver is modelled by its inspected
parameter list together with its body, a pure function from the keyword
arguments it is called with to a value.  The store state is the pair of
the `_registry` and `_cache` dictionaries, modelled as association lists
where an insert prepends (lookup finds the most recent binding, matching
dict overwrite semantics).

Resolution (`__getitem__` / `_resolve`) is recursive through resolver
dependencies, so it is modelled with an explicit fuel parameter; running
out of fuel yields the distinguished error `Err.outOfFuel`, which is an
artefact of the embedding (Python would recurse until the interpreter
limit).  A lookup additionally returns the trace of store keys whose
resolver body was invoked during the call, so that claims about how many
times a resolver executes can be stated.
-/

namespace Injectipy

/-- The kinds of `inspect.Parameter`. -/
inductive ParamKind where
  | positionalOrKeyword
  | keywordOnly
  | varPositional
  | varKeyword
  | positionalOnly
deriving DecidableEq, Repr

/-- Runtime values.  `marker k` is an `Inject` marker object carrying
dependency key `k` (in Python an `Inject` instance is an ordinary object
and can flow into a resolver as the parameter's default value);
`awaitable v` is an un-awaited coroutine that would produce `v`. -/
inductive PyVal (κ : Type) where
  | obj (tag : Nat)
  | str (s : String)
  | marker (k : κ)
  | awaitable (v : PyVal κ)
deriving DecidableEq, Repr

/-- A parameter's default, as seen by `inspect`: absent
(`inspect.Parameter.empty`), an `Inject` marker, or a plain value. -/
inductive ParamDefault (κ : Type) where
  | empty
  | inj (k : κ)
  | plain (v : PyVal κ)
deriving DecidableEq, Repr

/-- One parameter of a resolver's signature. -/
structure Param (κ : Type) where
  name : String
  kind : ParamKind
  default : ParamDefault κ
deriving DecidableEq, Repr

/-- A resolver: its inspected parameter list and its body, a pure
function from the keyword arguments the call receives to the produced
value. -/
structure Resolver (κ : Type) where
  params : List (Param κ)
  body : List (String × PyVal κ) → PyVal κ

/-- A registry entry: a static value (from `register_value`) or a
`_StoreResolverWithArgs` (from `register_resolver`). -/
inductive Entry (κ : Type) where
  | value (v : PyVal κ)
  | resolver (r : Resolver κ) (evaluate_once : Bool)

/-- The mutable state of `InjectipyStore`: `_registry` and `_cache`. -/
structure Store (κ : Type) where
  registry : List (κ × Entry κ)
  cache : List (κ × PyVal κ)

/-- The exceptions the store can raise, one constructor per raise site of
`store.py`.  In the legacy module under `src/` the first three are
`ValueError`s, `dependencyNotFound` is a `KeyError` and
`missingArgument` is the `TypeError` CPython raises when binding a call;
the spec's error taxonomy names these failure modes
`DuplicateRegistrationError`, `CircularDependencyError` and
`DependencyNotFoundError` (the dedicated classes live in the newer
module that the repository's tests import).  `outOfFuel` is an artefact
of the fueled embedding. -/
inductive Err (κ : Type) where
  | duplicateRegistration (k : κ)
  | circularDependency (newKey depKey : κ)
  | unsupportedParamKind (resolverKey : κ) (kind : ParamKind) (pname : String)
  | dependencyNotFound (k : κ)
  | missingArgument (pname : String)
  | outOfFuel
deriving DecidableEq, Repr

/-- Association-list lookup (Python `dict` access; inserts prepend, so
the first match is the current binding). -/
def alookup {κ α : Type} [DecidableEq κ] : List (κ × α) → κ → Option α
  | [], _ => none
  | (k', v) :: rest, k => if k = k' then some v else alookup rest k

variable {κ : Type} [DecidableEq κ]

/-- Rendering of `inspect._ParameterKind` as in its `str()`. -/
def param_kind_str : ParamKind → String
  | .positionalOrKeyword => "POSITIONAL_OR_KEYWORD"
  | .keywordOnly => "KEYWORD_ONLY"
  | .varPositional => "VAR_POSITIONAL"
  | .varKeyword => "VAR_KEYWORD"
  | .positionalOnly => "POSITIONAL_ONLY"

/-- The message of each exception, following the f-strings of
`store.py` (string keys). -/
def err_message : Err String → String
  | .duplicateRegistration k => "Key " ++ k ++ " already registered"
  | .circularDependency nk dk =>
      "Circular dependency detected: " ++ nk ++ " -> " ++ dk ++ " -> ... -> " ++ nk
  | .unsupportedParamKind rk kind pn =>
      "Resolver " ++ rk ++ " has unsupported parameter kind " ++ param_kind_str kind
        ++ " for parameter " ++ pn
  | .dependencyNotFound k => "Key " ++ k ++ " not found in the store"
  | .missingArgument pn => "missing a required argument: " ++ pn
  | .outOfFuel => "maximum recursion depth exceeded"

/-- Model of `InjectipyStore._get_resolver_dependencies`: the `Inject`-marker keys
among the resolver's parameter defaults (Python collects them into a
set; the list below may repeat a key, which no consumer distinguishes). -/
def get_resolver_dependencies (r : Resolver κ) : List κ :=
  r.params.filterMap fun p =>
    match p.default with
    | .inj k => some k
    | _ => none

/-- Model of `InjectipyStore._validate_resolver_signature`: every parameter must
be positional-or-keyword or keyword-only; the first offending parameter
is reported. -/
def validate_resolver_signature (resolver_key : κ) : List (Param κ) → Option (Err κ)
  | [] => none
  | p :: ps =>
      if p.kind = ParamKind.positionalOrKeyword ∨ p.kind = ParamKind.keywordOnly then
        validate_resolver_signature resolver_key ps
      else
        some (.unsupportedParamKind resolver_key p.kind p.name)

/-- Model of `InjectipyStore._has_dependency_path`, with explicit fuel (the
Python recursion terminates because `visited` grows inside the finite
registry; callers pass fuel exceeding the registry size). -/
def has_dependency_path (reg : List (κ × Entry κ)) : Nat → κ → κ → List κ → Bool
  | 0, _, _, _ => false
  | fuel + 1, fromKey, toKey, visited =>
      if fromKey = toKey then true
      else if fromKey ∈ visited then false
      else
        match alookup reg fromKey with
        | none => false
        | some (Entry.value _) => false
        | some (Entry.resolver r _) =>
            (get_resolver_dependencies r).any fun d =>
              has_dependency_path reg fuel d toKey (fromKey :: visited)

/-- Model of `InjectipyStore._check_circular_dependencies`: for each dependency of
the new resolver, search the existing registry for a path back to the
new key. -/
def check_circular_dependencies (s : Store κ) (new_key : κ) (r : Resolver κ) : Option (Err κ) :=
  match (get_resolver_dependencies r).find? (fun d =>
      has_dependency_path s.registry (s.registry.length + 1) d new_key []) with
  | some d => some (.circularDependency new_key d)
  | none => none

/-- Model of `InjectipyStore._raise_if_key_already_registered`. -/
def raise_if_key_already_registered (s : Store κ) (k : κ) : Option (Err κ) :=
  match alookup s.registry k with
  | some _ => some (.duplicateRegistration k)
  | none => none

/-- Model of `InjectipyStore.register_value`: duplicate check, then write the
value to both registry and cache. -/
def register_value (s : Store κ) (k : κ) (v : PyVal κ) : Option (Err κ) × Store κ :=
  match raise_if_key_already_registered s k with
  | some e => (some e, s)
  | none =>
      (none, { registry := (k, Entry.value v) :: s.registry,
               cache := (k, v) :: s.cache })

/-- Model of `InjectipyStore.register_resolver`: duplicate check, signature
validation, cycle check, then commit the entry (all checks precede the
single write, so a failed registration leaves the store unchanged). -/
def register_resolver (s : Store κ) (k : κ) (r : Resolver κ) (evaluate_once : Bool) :
    Option (Err κ) × Store κ :=
  match raise_if_key_already_registered s k with
  | some e => (some e, s)
  | none =>
      match validate_resolver_signature k r.params with
      | some e => (some e, s)
      | none =>
          match check_circular_dependencies s k r with
          | some e => (some e, s)
          | none =>
              (none, { s with registry := (k, Entry.resolver r evaluate_once) :: s.registry })

/-- CPython keyword binding for `resolver(**resolver_args)` over
positional-or-keyword / keyword-only parameters: a parameter takes the
passed argument if present, otherwise its declared default (an `Inject`
marker default is passed through as the marker object), and a parameter
with neither raises `TypeError`. -/
def bind_kwargs : List (Param κ) → List (String × PyVal κ) → Except (Err κ) (List (String × PyVal κ))
  | [], _ => .ok []
  | p :: ps, args =>
      match (match alookup args p.name with
             | some v => Except.ok v
             | none =>
                 match p.default with
                 | .inj m => Except.ok (PyVal.marker m)
                 | .plain v => Except.ok v
                 | .empty => Except.error (Err.missingArgument p.name)) with
      | .error e => .error e
      | .ok v =>
          match bind_kwargs ps args with
          | .error e => .error e
          | .ok rest => .ok ((p.name, v) :: rest)

/-- The dependency-gathering loop of `InjectipyStore._resolve`: walk the
parameters in order; for a parameter with an `Inject`-marker default,
look the key up with `look` (`self[...]`); a `KeyError`
(`dependencyNotFound`) is caught and the parameter skipped, any other
error propagates.  Returns the collected `resolver_args`, the resulting
store and the trace of resolver invocations performed underneath. -/
def resolve_params (look : Store κ → κ → Except (Err κ) (PyVal κ) × Store κ × List κ) :
    Store κ → List (Param κ) →
    Except (Err κ) (List (String × PyVal κ)) × Store κ × List κ
  | s, [] => (.ok [], s, [])
  | s, p :: ps =>
      match p.default with
      | ParamDefault.inj m =>
          match look s m with
          | (.ok v, s', tr) =>
              (match resolve_params look s' ps with
               | (.ok rest, s'', tr') => (.ok ((p.name, v) :: rest), s'', tr ++ tr')
               | (.error e, s'', tr') => (.error e, s'', tr ++ tr'))
          | (.error (Err.dependencyNotFound _), s', tr) =>
              (match resolve_params look s' ps with
               | (res, s'', tr') => (res, s'', tr ++ tr'))
          | (.error e, s', tr) => (.error e, s', tr)
      | _ => resolve_params look s ps

/-- Model of `InjectipyStore._resolve`: gather the injectable arguments, then call
`resolver(**resolver_args)`. -/
def resolve (look : Store κ → κ → Except (Err κ) (PyVal κ) × Store κ × List κ)
    (s : Store κ) (r : Resolver κ) :
    Except (Err κ) (PyVal κ) × Store κ × List κ :=
  match resolve_params look s r.params with
  | (.ok args, s', tr) =>
      match bind_kwargs r.params args with
      | .ok kw => (.ok (r.body kw), s', tr)
      | .error e => (.error e, s', tr)
  | (.error e, s', tr) => (.error e, s', tr)

/-- Model of `InjectipyStore.__getitem__`, with fuel bounding the recursion depth
through `_resolve`.  Returns the result, the store after the call, and
the trace of keys whose resolver body was invoked (in completion
order). -/
def getitem : Nat → Store κ → κ → Except (Err κ) (PyVal κ) × Store κ × List κ
  | 0 => fun s _ => (.error Err.outOfFuel, s, [])
  | fuel + 1 => fun s k =>
      match alookup s.cache k with
      | some v => (.ok v, s, [])
      | none =>
          match alookup s.registry k with
          | some (Entry.resolver r eo) =>
              match resolve (getitem fuel) s r with
              | (.ok v, s', tr) =>
                  if eo then (.ok v, { s' with cache := (k, v) :: s'.cache }, tr ++ [k])
                  else (.ok v, s', tr ++ [k])
              | (.error e, s', tr) => (.error e, s', tr)
          | some (Entry.value v) => (.ok v, s, [])
          | none => (.error (Err.dependencyNotFound k), s, [])

/-- Model of `InjectipyStore._reset_for_testing`: clear registry and cache. -/
def reset_for_testing (_s : Store κ) : Store κ :=
  { registry := [], cache := [] }

/-- The freshly initialised store (`__init__`). -/
def emptyStore : Store κ :=
  { registry := [], cache := [] }

/-- Reachability in the dependency graph induced by a registry: an edge
goes from a key whose entry is a resolver to each of that resolver's
`Inject`-marker dependency keys. -/
inductive Reaches (reg : List (κ × Entry κ)) : κ → κ → Prop where
  | refl (k : κ) : Reaches reg k k
  | step {a c : κ} {r : Resolver κ} {eo : Bool} (b : κ) :
      alookup reg a = some (Entry.resolver r eo) →
      b ∈ get_resolver_dependencies r →
      Reaches reg b c → Reaches reg a c

/-- The keyword arguments a resolver receives when every one of its
parameters carries an `Inject`-marker default and none of the marked
keys resolves: each parameter falls back to its declared default, the
marker object itself. -/
def marker_kwargs (ps : List (Param κ)) : List (String × PyVal κ) :=
  ps.map fun p =>
    (p.name,
     match p.default with
     | .inj m => PyVal.marker m
     | .plain v => v
     | .empty => PyVal.obj 0)

/-- The store invariant of claim C10: every cached key is registered. -/
def CacheSubRegistry (s : Store κ) : Prop :=
  ∀ k v, alookup s.cache k = some v → ∃ e, alookup s.registry k = some e

/-- Iterated lookups: `n` sequential lookups of one key: thread the store through
repeated `getitem` calls, concatenating the invocation traces; the
Boolean records whether every lookup returned a value. -/
def lookup_seq (fuel : Nat) (k : κ) : Nat → Store κ → Store κ × List κ × Bool
  | 0, s => (s, [], true)
  | n + 1, s =>
      match getitem fuel s k with
      | (res, s', tr) =>
          match lookup_seq fuel k n s' with
          | (s'', trs, ok) => (s'', tr ++ trs, res.isOk && ok)

/-- Modelled from the spec: registry entries of the async-aware engine,
which is referenced by the repository's tests but absent from `src/`
(the legacy `store.py` there predates async support).  Per spec §3 a
`Resolver` additionally carries an `is_async` flag; an async resolver's
callable produces its value only when awaited. -/
inductive AsyncEntry (κ : Type) where
  | value (v : PyVal κ)
  | syncResolver (f : Unit → PyVal κ) (evaluate_once : Bool)
  | asyncResolver (f : Unit → PyVal κ) (evaluate_once : Bool)

/-- Modelled from the spec: errors of the async-aware resolution path
(spec §4.3 and §7). -/
inductive AsyncErr (κ : Type) where
  | asyncDependency (fname pname : String) (k : κ)
  | notFound (k : κ)
deriving DecidableEq, Repr

/-- Modelled from the spec: the message contract of
`AsyncDependencyError` names the function, the parameter and the
dependency key, and points at the asynchronous decorator (spec §7). -/
def async_err_message : AsyncErr String → String
  | .asyncDependency fname pname k =>
      "Cannot resolve async dependency " ++ k ++ " for parameter " ++ pname
        ++ " of function " ++ fname ++ ". Use the async decorator instead."
  | .notFound k => "Dependency " ++ k ++ " not found"

/-- Modelled from the spec: the synchronous resolution path of the
async-aware engine (spec §4.3).  Resolving a parameter `pname` of
function `fname`: a registry hit on a static value or sync resolver
produces the value; a registry hit on an async resolver fails with
`AsyncDependencyError` — the engine never calls the async callable from
the synchronous path, so no un-awaited awaitable is produced. -/
def sync_resolve (fname pname : String) (reg : List (κ × AsyncEntry κ)) (k : κ) :
    Except (AsyncErr κ) (PyVal κ) :=
  match alookup reg k with
  | none => .error (.notFound k)
  | some (.value v) => .ok v
  | some (.syncResolver f _) => .ok (f ())
  | some (.asyncResolver _ _) => .error (.asyncDependency fname pname k)

/-- Modelled from the spec: the asynchronous path for the same
registration awaits the async callable and returns the materialised
value (spec §4.3). -/
def async_resolve (reg : List (κ × AsyncEntry κ)) (k : κ) :
    Except (AsyncErr κ) (PyVal κ) :=
  match alookup reg k with
  | none => .error (.notFound k)
  | some (.value v) => .ok v
  | some (.syncResolver f _) => .ok (f ())
  | some (.asyncResolver f _) => .ok (f ())

section ConcreteStores

/-- A resolver whose single parameter `x` carries `Inject["missing"]`
and whose body returns whatever it received for `x` (or a fresh object
if `x` was absent). -/
def crMissing : Resolver String :=
  { params := [⟨"x", ParamKind.positionalOrKeyword, ParamDefault.inj "missing"⟩],
    body := fun kw =>
      match alookup kw "x" with
      | some v => v
      | none => PyVal.obj 0 }

/-- A store holding only the resolver `a`, whose `Inject` dependency
`missing` is unregistered. -/
def csMissing : Store String :=
  { registry := [("a", Entry.resolver crMissing true)], cache := [] }

/-- A zero-argument-usable resolver with one unresolvable `Inject`
dependency, used with `evaluate_once = True`. -/
def crOnce : Resolver String :=
  { params := [⟨"x", ParamKind.positionalOrKeyword, ParamDefault.inj "cfg"⟩],
    body := fun _ => PyVal.obj 7 }

/-- Store registering `k` with the `evaluate_once` resolver `crOnce`. -/
def csOnce : Store String :=
  { registry := [("k", Entry.resolver crOnce true)], cache := [] }

/-- The same resolver registered with `evaluate_once = False`. -/
def csEach : Store String :=
  { registry := [("k", Entry.resolver crOnce false)], cache := [] }

/-- The store `csOnce` after its first lookup of `k`: the result is cached. -/
def csOnceAfter : Store String :=
  { registry := [("k", Entry.resolver crOnce true)], cache := [("k", PyVal.obj 7)] }

/-- Resolver for key `a` depending on key `b` (for the cycle claims). -/
def crA : Resolver String :=
  { params := [⟨"pb", ParamKind.positionalOrKeyword, ParamDefault.inj "b"⟩],
    body := fun _ => PyVal.obj 1 }

/-- Resolver for key `b` depending on key `a`. -/
def crB : Resolver String :=
  { params := [⟨"pa", ParamKind.positionalOrKeyword, ParamDefault.inj "a"⟩],
    body := fun _ => PyVal.obj 2 }

/-- Resolver depending on its own key `s`. -/
def crSelf : Resolver String :=
  { params := [⟨"ps", ParamKind.keywordOnly, ParamDefault.inj "s"⟩],
    body := fun _ => PyVal.obj 3 }

/-- A resolver with a `**kwargs`-style parameter (invalid kind). -/
def crVar : Resolver String :=
  { params := [⟨"kwargs", ParamKind.varKeyword, ParamDefault.empty⟩],
    body := fun _ => PyVal.obj 4 }

/-- Async-aware registry with one async-registered key (spec model). -/
def casyncReg : List (String × AsyncEntry String) :=
  [("db", AsyncEntry.asyncResolver (fun _ => PyVal.obj 5) false)]

end ConcreteStores

/-! ## Basic lemmas -/

theorem alookup_cons {α : Type} (k k' : κ) (v : α) (l : List (κ × α)) :
    alookup ((k', v) :: l) k = if k = k' then some v else alookup l k := rfl

theorem getitem_zero (s : Store κ) (j : κ) :
    getitem 0 s j = (.error Err.outOfFuel, s, []) := rfl

theorem getitem_succ (fuel : Nat) (s : Store κ) (j : κ) :
    getitem (fuel + 1) s j =
      match alookup s.cache j with
      | some v => (.ok v, s, [])
      | none =>
          match alookup s.registry j with
          | some (Entry.resolver r eo) =>
              match resolve (getitem fuel) s r with
              | (.ok v, s', tr) =>
                  if eo then (.ok v, { s' with cache := (j, v) :: s'.cache }, tr ++ [j])
                  else (.ok v, s', tr ++ [j])
              | (.error e, s', tr) => (.error e, s', tr)
          | some (Entry.value v) => (.ok v, s, [])
          | none => (.error (Err.dependencyNotFound j), s, []) := rfl

/-- The function `resolve` threads the same store and trace as its parameter loop;
only the result differs (body call or binding error). -/
theorem resolve_store_trace (look : Store κ → κ → Except (Err κ) (PyVal κ) × Store κ × List κ)
    (s : Store κ) (r : Resolver κ) :
    (resolve look s r).2.1 = (resolve_params look s r.params).2.1 ∧
    (resolve look s r).2.2 = (resolve_params look s r.params).2.2 := by
  unfold resolve
  rcases h : resolve_params look s r.params with ⟨resp, sp, trp⟩
  rcases resp with e | args
  · simp
  · cases hb : bind_kwargs r.params args <;> simp [hb]

/-- State shape of the `_resolve` parameter loop, given the same shape
for the lookup it performs: the registry is untouched, and any cache
entry that changes is a freshly written result of an
`evaluate_once` resolver registered for that key. -/
theorem resolve_params_state
    {look : Store κ → κ → Except (Err κ) (PyVal κ) × Store κ × List κ}
    (Hlook : ∀ (s₀ : Store κ) (j : κ),
      ((look s₀ j).2.1).registry = s₀.registry ∧
      ∀ k, alookup ((look s₀ j).2.1).cache k = alookup s₀.cache k ∨
           ∃ r' v, alookup s₀.registry k = some (Entry.resolver r' true) ∧
                   alookup ((look s₀ j).2.1).cache k = some v) :
    ∀ (ps : List (Param κ)) (s : Store κ),
      ((resolve_params look s ps).2.1).registry = s.registry ∧
      ∀ k, alookup ((resolve_params look s ps).2.1).cache k = alookup s.cache k ∨
           ∃ r' v, alookup s.registry k = some (Entry.resolver r' true) ∧
                   alookup ((resolve_params look s ps).2.1).cache k = some v := by
  intro ps
  induction ps with
  | nil => intro s; simp [resolve_params]
  | cons p ps ih =>
    intro s
    rcases hd : p.default with _ | m | v
    · simp only [resolve_params, hd]; exact ih s
    · rcases hl : look s m with ⟨res, s', tr⟩
      have hstep₁ : s'.registry = s.registry := by
        have := (Hlook s m).1; rw [hl] at this; exact this
      have hstep₂ : ∀ k, alookup s'.cache k = alookup s.cache k ∨
          ∃ r' v, alookup s.registry k = some (Entry.resolver r' true) ∧
                  alookup s'.cache k = some v := by
        have := (Hlook s m).2; rw [hl] at this; exact this
      have hrest₁ : ((resolve_params look s' ps).2.1).registry = s'.registry := (ih s').1
      have hrest₂ := (ih s').2
      have hcomp : ∀ k, alookup ((resolve_params look s' ps).2.1).cache k = alookup s.cache k ∨
          ∃ r' v, alookup s.registry k = some (Entry.resolver r' true) ∧
                  alookup ((resolve_params look s' ps).2.1).cache k = some v := by
        intro k
        rcases hrest₂ k with h | ⟨r', v', hreg, hw⟩
        · rcases hstep₂ k with h' | ⟨r', v', hreg, hw⟩
          · exact Or.inl (h.trans h')
          · exact Or.inr ⟨r', v', hreg, h.trans hw⟩
        · rw [hstep₁] at hreg
          exact Or.inr ⟨r', v', hreg, hw⟩
      have hcompreg : ((resolve_params look s' ps).2.1).registry = s.registry :=
        hrest₁.trans hstep₁
      rcases res with e | v
      · rcases hrp : resolve_params look s' ps with ⟨resp, sp, trp⟩
        rw [hrp] at hcomp hcompreg
        cases e <;>
          simp only [resolve_params, hd, hl, hrp] <;>
          first
          | exact ⟨hcompreg, hcomp⟩
          | exact ⟨hstep₁, hstep₂⟩
      · rcases hrp : resolve_params look s' ps with ⟨resp, sp, trp⟩
        rw [hrp] at hcomp hcompreg
        rcases resp with e | args <;>
          · simp only [resolve_params, hd, hl, hrp]
            exact ⟨hcompreg, hcomp⟩
    · simp only [resolve_params, hd]; exact ih s

/-- State shape of `__getitem__`: the registry is untouched, and any
cache entry that changes is a freshly written `evaluate_once` result
for a key registered with an `evaluate_once` resolver. -/
theorem getitem_state : ∀ (fuel : Nat) (s : Store κ) (j : κ),
    ((getitem fuel s j).2.1).registry = s.registry ∧
    ∀ k, alookup ((getitem fuel s j).2.1).cache k = alookup s.cache k ∨
         ∃ r' v, alookup s.registry k = some (Entry.resolver r' true) ∧
                 alookup ((getitem fuel s j).2.1).cache k = some v := by
  intro fuel
  induction fuel with
  | zero => intro s j; simp [getitem_zero]
  | succ fuel ih =>
    intro s j
    rw [getitem_succ]
    rcases hc : alookup s.cache j with _ | v
    · rcases hr : alookup s.registry j with _ | e
      · exact ⟨rfl, fun k => Or.inl rfl⟩
      · rcases e with v | ⟨r, eo⟩
        · exact ⟨rfl, fun k => Or.inl rfl⟩
        · rcases hres : resolve (getitem fuel) s r with ⟨res, s', tr⟩
          have hst := resolve_store_trace (getitem fuel) s r
          rw [hres] at hst
          have hps := resolve_params_state ih r.params s
          rcases hrp : resolve_params (getitem fuel) s r.params with ⟨resp, sp, trp⟩
          rw [hrp] at hps hst
          have hs' : s' = sp := hst.1
          subst hs'
          rcases res with e | v
          · simp only [hc, hr, hres]
            exact hps
          · rcases eo with _ | _
            · simp only [hc, hr, hres, if_neg Bool.false_ne_true]
              exact hps
            · simp only [hc, hr, hres, if_pos rfl]
              refine ⟨hps.1, ?_⟩
              intro k
              by_cases hkj : k = j
              · subst hkj
                exact Or.inr ⟨r, v, hr, by simp [alookup_cons]⟩
              · rcases hps.2 k with h | ⟨r', v', hreg, hw⟩
                · exact Or.inl (by simpa [alookup_cons, hkj] using h)
                · exact Or.inr ⟨r', v', hreg, by simpa [alookup_cons, hkj] using hw⟩
    · exact ⟨rfl, fun k => Or.inl rfl⟩

/-- If a parameter's `Inject` key appears in a resolver's parameter
list, it is among the resolver's dependencies. -/
theorem mem_get_resolver_dependencies {r : Resolver κ} {p : Param κ} {m : κ}
    (hp : p ∈ r.params) (hd : p.default = ParamDefault.inj m) :
    m ∈ get_resolver_dependencies r := by
  unfold get_resolver_dependencies
  exact List.mem_filterMap.mpr ⟨p, hp, by rw [hd]⟩

/-- No-touch property of the `_resolve` parameter loop: if the key `k`
is not reachable from any `Inject` dependency of the parameters, the
loop never invokes the resolver registered at `k` and leaves its cache
entry unchanged. -/
theorem resolve_params_noTouch (k : κ) (REG : List (κ × Entry κ))
    {look : Store κ → κ → Except (Err κ) (PyVal κ) × Store κ × List κ}
    (Hlook : ∀ (s₀ : Store κ) (j : κ), s₀.registry = REG → ¬ Reaches REG j k →
       ((look s₀ j).2.1).registry = REG ∧
       k ∉ (look s₀ j).2.2 ∧
       alookup ((look s₀ j).2.1).cache k = alookup s₀.cache k) :
    ∀ (ps : List (Param κ)) (s : Store κ), s.registry = REG →
      (∀ p ∈ ps, ∀ m, p.default = ParamDefault.inj m → ¬ Reaches REG m k) →
      ((resolve_params look s ps).2.1).registry = REG ∧
      k ∉ (resolve_params look s ps).2.2 ∧
      alookup ((resolve_params look s ps).2.1).cache k = alookup s.cache k := by
  intro ps
  induction ps with
  | nil => intro s hreg _; exact ⟨hreg, List.not_mem_nil k, rfl⟩
  | cons p ps ih =>
    intro s hreg hps
    rcases hd : p.default with _ | m | v
    · simp only [resolve_params, hd]
      exact ih s hreg (fun q hq => hps q (List.mem_cons_of_mem p hq))
    · have hnr : ¬ Reaches REG m k := hps p (List.mem_cons_self p ps) m hd
      rcases hl : look s m with ⟨res, s', tr⟩
      have hstep := Hlook s m hreg hnr
      rw [hl] at hstep
      obtain ⟨hreg', hktr, hcache⟩ := hstep
      have hrest := ih s' hreg' (fun q hq => hps q (List.mem_cons_of_mem p hq))
      rcases hrp : resolve_params look s' ps with ⟨resp, sp, trp⟩
      rw [hrp] at hrest
      obtain ⟨hreg'', hktrp, hcache'⟩ := hrest
      rcases res with e | v
      · cases e <;>
          simp only [resolve_params, hd, hl, hrp] <;>
          first
          | exact ⟨hreg'', by simp [hktr, hktrp], hcache'.trans hcache⟩
          | exact ⟨hreg', hktr, hcache⟩
      · rcases resp with e | args <;>
          · simp only [resolve_params, hd, hl, hrp]
            exact ⟨hreg'', by simp [hktr, hktrp], hcache'.trans hcache⟩
    · simp only [resolve_params, hd]
      exact ih s hreg (fun q hq => hps q (List.mem_cons_of_mem p hq))

/-- No-touch property of `__getitem__`: if `k` is not reachable from the
looked-up key in the dependency graph, the lookup never invokes the
resolver registered at `k` and leaves the cache entry of `k`
unchanged (the registry is unchanged throughout, as always). -/
theorem getitem_noTouch (k : κ) : ∀ (fuel : Nat) (s : Store κ) (j : κ),
    ¬ Reaches s.registry j k →
    ((getitem fuel s j).2.1).registry = s.registry ∧
    k ∉ (getitem fuel s j).2.2 ∧
    alookup ((getitem fuel s j).2.1).cache k = alookup s.cache k := by
  intro fuel
  induction fuel with
  | zero => intro s j _; exact ⟨rfl, List.not_mem_nil k, rfl⟩
  | succ fuel ih =>
    intro s j hnr
    have hjk : j ≠ k := fun h => hnr (h ▸ Reaches.refl j)
    rw [getitem_succ]
    rcases hc : alookup s.cache j with _ | v
    · rcases hr : alookup s.registry j with _ | e
      · exact ⟨rfl, by simp, rfl⟩
      · rcases e with v | ⟨r, eo⟩
        · exact ⟨rfl, by simp, rfl⟩
        · have hdeps : ∀ m ∈ get_resolver_dependencies r, ¬ Reaches s.registry m k :=
            fun m hm hmk => hnr (Reaches.step m hr hm hmk)
          have hloop := resolve_params_noTouch k s.registry
            (fun s₀ j₀ hreg₀ hnr₀ =>
              ⟨(getitem_state fuel s₀ j₀).1.trans hreg₀,
               (ih s₀ j₀ (by rw [hreg₀]; exact hnr₀)).2.1,
               (ih s₀ j₀ (by rw [hreg₀]; exact hnr₀)).2.2⟩)
            r.params s rfl
            (fun p hp m hd => hdeps m (mem_get_resolver_dependencies hp hd))
          rcases hres : resolve (getitem fuel) s r with ⟨res, s', tr⟩
          have hst := resolve_store_trace (getitem fuel) s r
          rw [hres] at hst
          rcases hrp : resolve_params (getitem fuel) s r.params with ⟨resp, sp, trp⟩
          rw [hrp] at hloop hst
          obtain ⟨hregL, hktrL, hcacheL⟩ := hloop
          have hs' : s' = sp := hst.1
          have htr : tr = trp := hst.2
          subst hs'; subst htr
          rcases res with e | v
          · simp only [hc, hr, hres]
            exact ⟨hregL, hktrL, hcacheL⟩
          · rcases eo with _ | _
            · simp only [hc, hr, hres, if_neg Bool.false_ne_true]
              refine ⟨hregL, ?_, hcacheL⟩
              simp [hktrL, hjk.symm]
            · simp only [hc, hr, hres, if_pos rfl]
              refine ⟨hregL, ?_, ?_⟩
              · simp [hktrL, hjk.symm]
              · have hstep : alookup ((j, v) :: s'.cache) k = alookup s'.cache k := by
                  rw [alookup_cons, if_neg hjk.symm]
                exact hstep.trans hcacheL
    · exact ⟨rfl, by simp, rfl⟩

/-- Inversion principle for `Reaches`. -/
theorem reaches_inv {reg : List (κ × Entry κ)} {a b : κ} (h : Reaches reg a b) :
    a = b ∨ ∃ r eo m, alookup reg a = some (Entry.resolver r eo) ∧
      m ∈ get_resolver_dependencies r ∧ Reaches reg m b := by
  cases h with
  | refl => exact Or.inl rfl
  | step m hl hm hr => exact Or.inr ⟨_, _, m, hl, hm, hr⟩

/-- No-touch property of `_resolve`: same as for the parameter loop,
since `_resolve` only adds the body call. -/
theorem resolve_noTouch (k : κ) (fuel : Nat) (s : Store κ) (r : Resolver κ)
    (hdeps : ∀ m ∈ get_resolver_dependencies r, ¬ Reaches s.registry m k) :
    ((resolve (getitem fuel) s r).2.1).registry = s.registry ∧
    k ∉ (resolve (getitem fuel) s r).2.2 ∧
    alookup ((resolve (getitem fuel) s r).2.1).cache k = alookup s.cache k := by
  have hst := resolve_store_trace (getitem fuel) s r
  have hloop := resolve_params_noTouch k s.registry
    (fun s₀ j₀ hreg₀ hnr₀ =>
      ⟨(getitem_state fuel s₀ j₀).1.trans hreg₀,
       (getitem_noTouch k fuel s₀ j₀ (by rw [hreg₀]; exact hnr₀)).2.1,
       (getitem_noTouch k fuel s₀ j₀ (by rw [hreg₀]; exact hnr₀)).2.2⟩)
    r.params s rfl
    (fun p hp m hd => hdeps m (mem_get_resolver_dependencies hp hd))
  rw [hst.1, hst.2]
  exact hloop

/-- A registration whose dependencies are all unregistered keys distinct
from the new key passes every check and commits exactly the new
registry entry. -/
theorem register_resolver_succeeds (s : Store κ) (k : κ) (r : Resolver κ) (eo : Bool)
    (hk : alookup s.registry k = none)
    (hv : validate_resolver_signature k r.params = none)
    (hdeps : ∀ d ∈ get_resolver_dependencies r, alookup s.registry d = none ∧ d ≠ k) :
    register_resolver s k r eo =
      (none, { s with registry := (k, Entry.resolver r eo) :: s.registry }) := by
  have hcc : check_circular_dependencies s k r = none := by
    unfold check_circular_dependencies
    have hall : ∀ d ∈ get_resolver_dependencies r,
        ¬ (has_dependency_path s.registry (s.registry.length + 1) d k [] = true) := by
      intro d hd
      obtain ⟨hdreg, hdk⟩ := hdeps d hd
      simp [has_dependency_path, hdk, hdreg]
    rw [List.find?_eq_none.mpr hall]
  unfold register_resolver raise_if_key_already_registered
  rw [hk, hv, hcc]

/-- Binding with no passed arguments: `bind_kwargs` over all-`Inject` parameters
falls back to the declared defaults: the marker objects themselves. -/
theorem bind_kwargs_all_inject : ∀ ps : List (Param κ),
    (∀ p ∈ ps, ∃ m, p.default = ParamDefault.inj m) →
    bind_kwargs ps ([] : List (String × PyVal κ)) = .ok (marker_kwargs ps) := by
  intro ps
  induction ps with
  | nil => intro _; rfl
  | cons p ps ih =>
    intro hall
    obtain ⟨m, hm⟩ := hall p (List.mem_cons_self p ps)
    have hrest := ih (fun q hq => hall q (List.mem_cons_of_mem p hq))
    simp [bind_kwargs, marker_kwargs, hm, alookup, hrest]

/-- The `_resolve` parameter loop over parameters whose `Inject` keys
are all absent from cache and registry: every dependency lookup raises
`KeyError`, is caught, and the parameter is skipped, so no arguments are
collected and the store is untouched. -/
theorem resolve_params_all_missing (fuel : Nat) : ∀ (ps : List (Param κ)) (s : Store κ),
    (∀ p ∈ ps, ∃ m, p.default = ParamDefault.inj m ∧
        alookup s.cache m = none ∧ alookup s.registry m = none) →
    resolve_params (getitem (fuel + 1)) s ps = (.ok [], s, []) := by
  intro ps
  induction ps with
  | nil => intro s _; rfl
  | cons p ps ih =>
    intro s hall
    obtain ⟨m, hm, hcm, hrm⟩ := hall p (List.mem_cons_self p ps)
    have hmiss : getitem (fuel + 1) s m = (.error (Err.dependencyNotFound m), s, []) := by
      rw [getitem_succ, hcm, hrm]
    have hrest := ih s (fun q hq => hall q (List.mem_cons_of_mem p hq))
    simp [resolve_params, hm, hmiss, hrest]

/-- Validation reports the first parameter whose
kind is neither positional-or-keyword nor keyword-only, whenever one
exists. -/
theorem validate_first_bad (key : κ) : ∀ ps : List (Param κ),
    (∃ p ∈ ps, ¬ (p.kind = ParamKind.positionalOrKeyword ∨ p.kind = ParamKind.keywordOnly)) →
    ∃ p ∈ ps, ¬ (p.kind = ParamKind.positionalOrKeyword ∨ p.kind = ParamKind.keywordOnly) ∧
      validate_resolver_signature key ps =
        some (Err.unsupportedParamKind key p.kind p.name) := by
  intro ps
  induction ps with
  | nil => rintro ⟨p, hp, _⟩; cases hp
  | cons p ps ih =>
    rintro ⟨q, hq, hbad⟩
    by_cases hk : p.kind = ParamKind.positionalOrKeyword ∨ p.kind = ParamKind.keywordOnly
    · have hqps : q ∈ ps := by
        rcases List.mem_cons.mp hq with h | h
        · subst h; exact absurd hk hbad
        · exact h
      obtain ⟨q', hq', hbad', hval⟩ := ih ⟨q, hqps, hbad⟩
      exact ⟨q', List.mem_cons_of_mem p hq', hbad',
        by simpa [validate_resolver_signature, hk] using hval⟩
    · exact ⟨p, List.mem_cons_self p ps, hk,
        by simp [validate_resolver_signature, hk]⟩

/-- A single `evaluate_once = False` lookup whose key is uncached and
whose dependencies cannot reach the key back: the resolver runs exactly
once, the result is not cached, and the registry is untouched. -/
theorem getitem_no_cache_once (fuel : Nat) (s : Store κ) (k : κ) (r : Resolver κ)
    (v : PyVal κ) (s' : Store κ) (tr : List κ)
    (hc : alookup s.cache k = none)
    (hr : alookup s.registry k = some (Entry.resolver r false))
    (hcyc : ∀ d ∈ get_resolver_dependencies r, ¬ Reaches s.registry d k)
    (hrun : getitem fuel s k = (Except.ok v, s', tr)) :
    tr.count k = 1 ∧ alookup s'.cache k = none ∧ s'.registry = s.registry := by
  cases fuel with
  | zero => simp [getitem_zero] at hrun
  | succ fuel =>
    rw [getitem_succ] at hrun
    simp only [hc, hr] at hrun
    rcases hres : resolve (getitem fuel) s r with ⟨res, s₀, tr₀⟩
    rw [hres] at hrun
    have hnt := resolve_noTouch k fuel s r hcyc
    rw [hres] at hnt
    obtain ⟨hreg₀, hktr₀, hcache₀⟩ := hnt
    rcases res with e | w
    · simp at hrun
    · simp only [if_neg Bool.false_ne_true, Prod.mk.injEq, Except.ok.injEq] at hrun
      obtain ⟨hwv, hs, htr⟩ := hrun
      refine ⟨?_, ?_, ?_⟩
      · rw [← htr, List.count_append]
        rw [List.count_eq_zero.mpr hktr₀]
        simp
      · rw [← hs]
        exact hcache₀.trans hc
      · rw [← hs]
        exact hreg₀


/-! ## Claim theorems -/

/-- C4: for every key already registered in the store (value or
resolver), a second registration of that key via `register_value` or
`register_resolver` raises the duplicate-registration error
(`ValueError` in the legacy module, `DuplicateRegistrationError` in the
spec taxonomy), and the store — registry and cache — is left
unchanged. -/
theorem c4_duplicate_registration (s : Store κ) (k : κ) (e : Entry κ)
    (v : PyVal κ) (r : Resolver κ) (eo : Bool)
    (h : alookup s.registry k = some e) :
    register_value s k v = (some (Err.duplicateRegistration k), s) ∧
    register_resolver s k r eo = (some (Err.duplicateRegistration k), s) := by
  unfold register_value register_resolver raise_if_key_already_registered
  rw [h]
  exact ⟨rfl, rfl⟩

/-- Witness for C4 at a concrete store. -/
theorem c4_witness :
    register_value csOnce "k" (PyVal.obj 1) =
      (some (Err.duplicateRegistration "k"), csOnce) ∧
    register_resolver csOnce "k" crOnce true =
      (some (Err.duplicateRegistration "k"), csOnce) :=
  c4_duplicate_registration csOnce "k" (Entry.resolver crOnce true)
    (PyVal.obj 1) crOnce true rfl

/-- C6: looking up a key registered nowhere raises the not-found error
(`KeyError` in the legacy module, `DependencyNotFoundError` in the spec
taxonomy) carrying that key, and its message names the key.  (The legacy
message does not list the available keys; the claim requires that only
"where available".) -/
theorem c6_missing_key (s : Store String) (k : String) (fuel : Nat)
    (hc : alookup s.cache k = none) (hr : alookup s.registry k = none) :
    getitem (fuel + 1) s k = (.error (Err.dependencyNotFound k), s, []) ∧
    err_message (Err.dependencyNotFound k) =
      "Key " ++ k ++ " not found in the store" := by
  rw [getitem_succ, hc, hr]
  exact ⟨rfl, rfl⟩

/-- Witness for C6 at a concrete store. -/
theorem c6_witness :
    getitem 3 csMissing "missing" =
      (.error (Err.dependencyNotFound "missing"), csMissing, []) ∧
    err_message (Err.dependencyNotFound "missing") =
      "Key " ++ "missing" ++ " not found in the store" :=
  c6_missing_key csMissing "missing" 2 rfl rfl

/-- C9: registering (under a fresh key) a callable having a parameter
whose kind is neither positional-or-keyword nor keyword-only raises a
descriptive `ValueError` naming the offending parameter, and the store
is unchanged (registration is atomic: the checks precede the single
write). -/
theorem c9_invalid_param_kind (s : Store String) (k : String) (r : Resolver String)
    (eo : Bool)
    (hk : alookup s.registry k = none)
    (hbad : ∃ p ∈ r.params,
      ¬ (p.kind = ParamKind.positionalOrKeyword ∨ p.kind = ParamKind.keywordOnly)) :
    ∃ p ∈ r.params,
      ¬ (p.kind = ParamKind.positionalOrKeyword ∨ p.kind = ParamKind.keywordOnly) ∧
      register_resolver s k r eo =
        (some (Err.unsupportedParamKind k p.kind p.name), s) ∧
      err_message (Err.unsupportedParamKind k p.kind p.name) =
        "Resolver " ++ k ++ " has unsupported parameter kind "
          ++ param_kind_str p.kind ++ " for parameter " ++ p.name := by
  obtain ⟨p, hp, hbadp, hval⟩ := validate_first_bad k r.params hbad
  refine ⟨p, hp, hbadp, ?_, rfl⟩
  unfold register_resolver raise_if_key_already_registered
  rw [hk, hval]

/-- Witness for C9 at a concrete resolver with a `**kwargs` parameter. -/
theorem c9_witness :
    ∃ p ∈ crVar.params,
      ¬ (p.kind = ParamKind.positionalOrKeyword ∨ p.kind = ParamKind.keywordOnly) ∧
      register_resolver (emptyStore : Store String) "bad" crVar false =
        (some (Err.unsupportedParamKind "bad" p.kind p.name), emptyStore) ∧
      err_message (Err.unsupportedParamKind "bad" p.kind p.name) =
        "Resolver " ++ "bad" ++ " has unsupported parameter kind "
          ++ param_kind_str p.kind ++ " for parameter " ++ p.name :=
  c9_invalid_param_kind emptyStore "bad" crVar false rfl
    ⟨⟨"kwargs", ParamKind.varKeyword, ParamDefault.empty⟩, by decide, by decide⟩

/-- C8: registration succeeds when every declared `Inject` dependency is
a forward reference (unregistered and distinct from the new key): the
cycle search terminates at unregistered keys with "no path", so a
forward reference alone never fails registration, and exactly the new
entry is committed. -/
theorem c8_forward_reference (s : Store κ) (k : κ) (r : Resolver κ) (eo : Bool)
    (hk : alookup s.registry k = none)
    (hv : validate_resolver_signature k r.params = none)
    (hdeps : ∀ d ∈ get_resolver_dependencies r, alookup s.registry d = none ∧ d ≠ k) :
    register_resolver s k r eo =
      (none, { s with registry := (k, Entry.resolver r eo) :: s.registry }) :=
  register_resolver_succeeds s k r eo hk hv hdeps

/-- Witness for C8: registering `crOnce`, whose only dependency `cfg` is
unregistered, succeeds. -/
theorem c8_witness :
    register_resolver (emptyStore : Store String) "k" crOnce true =
      (none, { emptyStore with
                 registry := ("k", Entry.resolver crOnce true) :: (emptyStore : Store String).registry }) :=
  c8_forward_reference emptyStore "k" crOnce true rfl rfl
    (by
      intro d hd
      simp only [get_resolver_dependencies, crOnce, List.filterMap] at hd
      simp at hd
      subst hd
      exact ⟨rfl, by decide⟩)

/-- C3: after registering `a` depending on `b`, registering `b`
depending on `a` raises the circular-dependency error (`ValueError` in
the legacy module, `CircularDependencyError` in the spec taxonomy) and
commits nothing: `b` remains unregistered and the store is exactly the
one after the first registration.  A resolver depending on its own key
is likewise rejected at registration time with the same error, the
degenerate one-node case of the same search. -/
theorem c3_cycle_rejected (s : Store κ) (a b : κ) (rA rB : Resolver κ) (eoA eoB : Bool)
    (hab : a ≠ b)
    (ha : alookup s.registry a = none) (hb : alookup s.registry b = none)
    (hvA : validate_resolver_signature a rA.params = none)
    (hvB : validate_resolver_signature b rB.params = none)
    (hdA : get_resolver_dependencies rA = [b])
    (hdB : get_resolver_dependencies rB = [a]) :
    (∃ s₁, register_resolver s a rA eoA = (none, s₁) ∧
      register_resolver s₁ b rB eoB = (some (Err.circularDependency b a), s₁) ∧
      alookup s₁.registry b = none) ∧
    (∀ (k : κ) (rS : Resolver κ) (eoS : Bool), alookup s.registry k = none →
      validate_resolver_signature k rS.params = none →
      k ∈ get_resolver_dependencies rS →
      ∃ d, register_resolver s k rS eoS = (some (Err.circularDependency k d), s)) := by
  constructor
  · refine ⟨{ s with registry := (a, Entry.resolver rA eoA) :: s.registry }, ?_, ?_, ?_⟩
    · refine register_resolver_succeeds s a rA eoA ha hvA ?_
      intro d hd
      rw [hdA] at hd
      simp at hd
      subst hd
      exact ⟨hb, hab.symm⟩
    · have hb' : alookup ((a, Entry.resolver rA eoA) :: s.registry) b = none := by
        rw [alookup_cons, if_neg hab.symm]
        exact hb
      have hpath : has_dependency_path
          ((a, Entry.resolver rA eoA) :: s.registry)
          (((a, Entry.resolver rA eoA) :: s.registry).length + 1) a b [] = true := by
        simp [has_dependency_path, List.length_cons, hab, alookup_cons, hdA]
      have hcc : check_circular_dependencies
          { s with registry := (a, Entry.resolver rA eoA) :: s.registry } b rB =
          some (Err.circularDependency b a) := by
        unfold check_circular_dependencies
        rw [hdB]
        simp only [List.find?_cons, hpath]
      unfold register_resolver raise_if_key_already_registered
      rw [show alookup ({ s with registry := (a, Entry.resolver rA eoA) :: s.registry} : Store κ).registry b = none from hb']
      rw [hvB, hcc]
    · rw [alookup_cons, if_neg hab.symm]
      exact hb
  · intro k rS eoS hk hvS hmem
    have hself : has_dependency_path s.registry (s.registry.length + 1) k k [] = true := by
      rw [has_dependency_path]
      simp
    have hfind : ((get_resolver_dependencies rS).find? (fun d =>
        has_dependency_path s.registry (s.registry.length + 1) d k [])).isSome := by
      rw [List.find?_isSome]
      exact ⟨k, hmem, hself⟩
    obtain ⟨d, hd⟩ := Option.isSome_iff_exists.mp hfind
    refine ⟨d, ?_⟩
    unfold register_resolver raise_if_key_already_registered
    rw [hk, hvS]
    unfold check_circular_dependencies
    rw [hd]

/-- Witness for C3 with the concrete resolvers `crA` (a → b) and
`crB` (b → a) and the self-depending `crSelf`. -/
theorem c3_witness :
    (∃ s₁, register_resolver (emptyStore : Store String) "a" crA false = (none, s₁) ∧
      register_resolver s₁ "b" crB false = (some (Err.circularDependency "b" "a"), s₁) ∧
      alookup s₁.registry "b" = none) ∧
    (∀ (k : String) (rS : Resolver String) (eoS : Bool),
      alookup (emptyStore : Store String).registry k = none →
      validate_resolver_signature k rS.params = none →
      k ∈ get_resolver_dependencies rS →
      ∃ d, register_resolver (emptyStore : Store String) k rS eoS =
        (some (Err.circularDependency k d), emptyStore)) :=
  c3_cycle_rejected emptyStore "a" "b" crA crB false false
    (by decide) rfl rfl rfl rfl rfl rfl


/-- C1 counterexample: in `csMissing`, key `a` is registered with a
resolver whose single parameter carries `Inject["missing"]` and
`missing` is unregistered; looking up `a` does NOT fail with the
not-found error for `missing` — it succeeds, and the resolver body even
receives the `Inject` marker object itself. -/
theorem c1_counterexample :
    (getitem 3 csMissing "a").1 = Except.ok (PyVal.marker "missing") ∧
    (getitem 3 csMissing "a").1 ≠ Except.error (Err.dependencyNotFound "missing") := by
  constructor
  · rfl
  · intro h
    rw [show (getitem 3 csMissing "a").1 = Except.ok (PyVal.marker "missing") from rfl] at h
    exact Except.noConfusion h

/-- C1 amended: when a registered resolver's `Inject`-marker
dependencies are unresolvable at resolution time, the inner not-found
error is caught by `_resolve` and each such parameter is skipped, so the
lookup of the resolver's key succeeds: the resolver body is invoked
(exactly once) with the marker objects as the parameters' values. -/
theorem c1_amended_inject_miss_is_silent (s : Store κ) (k : κ) (r : Resolver κ)
    (eo : Bool) (fuel : Nat)
    (hc : alookup s.cache k = none)
    (hr : alookup s.registry k = some (Entry.resolver r eo))
    (hall : ∀ p ∈ r.params, ∃ m, p.default = ParamDefault.inj m ∧
        alookup s.cache m = none ∧ alookup s.registry m = none) :
    (getitem (fuel + 1 + 1) s k).1 = Except.ok (r.body (marker_kwargs r.params)) ∧
    (getitem (fuel + 1 + 1) s k).2.2 = [k] := by
  have hrp : resolve_params (getitem (fuel + 1)) s r.params = (.ok [], s, []) :=
    resolve_params_all_missing fuel r.params s hall
  have hbk : bind_kwargs r.params ([] : List (String × PyVal κ)) =
      .ok (marker_kwargs r.params) :=
    bind_kwargs_all_inject r.params
      (fun p hp => (hall p hp).imp fun m hm => hm.1)
  have hres : resolve (getitem (fuel + 1)) s r =
      (.ok (r.body (marker_kwargs r.params)), s, []) := by
    simp only [resolve, hrp, hbk]
  rw [getitem_succ]
  rcases eo with _ | _ <;> simp [hc, hr, hres]

/-- Witness for the amended C1 at the concrete store `csMissing`. -/
theorem c1_amended_witness :
    (getitem 3 csMissing "a").1 =
      Except.ok (crMissing.body (marker_kwargs crMissing.params)) ∧
    (getitem 3 csMissing "a").2.2 = ["a"] :=
  c1_amended_inject_miss_is_silent csMissing "a" crMissing true 1 rfl rfl
    (by
      intro p hp
      rw [show crMissing.params = [⟨"x", ParamKind.positionalOrKeyword,
            ParamDefault.inj "missing"⟩] from rfl] at hp
      simp at hp
      subst hp
      exact ⟨"missing", rfl, rfl, rfl⟩)

/-- C2: for a key registered with `evaluate_once = True` and not yet
cached, whose dependencies cannot reach it back (as registration
guarantees), a successful first lookup caches the produced value, the
resolver body runs exactly once during it, and every later lookup
returns the identical cached object with no further invocation and no
state change. -/
theorem c2_evaluate_once_caches (s : Store κ) (k : κ) (r : Resolver κ)
    (v : PyVal κ) (s' : Store κ) (tr : List κ) (fuel : Nat)
    (hc : alookup s.cache k = none)
    (hr : alookup s.registry k = some (Entry.resolver r true))
    (hcyc : ∀ d ∈ get_resolver_dependencies r, ¬ Reaches s.registry d k)
    (hrun : getitem fuel s k = (Except.ok v, s', tr)) :
    alookup s'.cache k = some v ∧
    tr.count k = 1 ∧
    (∀ fuel', getitem (fuel' + 1) s' k = (Except.ok v, s', [])) := by
  cases fuel with
  | zero => simp [getitem_zero] at hrun
  | succ fuel =>
    rw [getitem_succ] at hrun
    simp only [hc, hr] at hrun
    rcases hres : resolve (getitem fuel) s r with ⟨res, s₀, tr₀⟩
    rw [hres] at hrun
    have hnt := resolve_noTouch k fuel s r hcyc
    rw [hres] at hnt
    obtain ⟨hreg₀, hktr₀, hcache₀⟩ := hnt
    rcases res with e | w
    · simp at hrun
    · simp only [if_pos, Prod.mk.injEq, Except.ok.injEq] at hrun
      obtain ⟨hwv, hs, htr⟩ := hrun
      have hcached : alookup s'.cache k = some v := by
        rw [← hs]
        show alookup ((k, w) :: s₀.cache) k = some v
        rw [alookup_cons, if_pos rfl, hwv]
      refine ⟨hcached, ?_, ?_⟩
      · rw [← htr, List.count_append, List.count_eq_zero.mpr hktr₀]
        simp
      · intro fuel'
        rw [getitem_succ, hcached]

/-- Witness for C2 at the concrete store `csOnce`. -/
theorem c2_witness :
    alookup csOnceAfter.cache "k" = some (PyVal.obj 7) ∧
    (["k"] : List String).count "k" = 1 ∧
    (∀ fuel', getitem (fuel' + 1) csOnceAfter "k" =
      (Except.ok (PyVal.obj 7), csOnceAfter, [])) :=
  c2_evaluate_once_caches csOnce "k" crOnce (PyVal.obj 7) csOnceAfter ["k"] 3
    rfl rfl
    (by
      intro d hd
      rw [show get_resolver_dependencies crOnce = ["cfg"] from rfl] at hd
      simp at hd
      subst hd
      intro h
      rcases reaches_inv h with heq | ⟨r', eo', m, hl, _, _⟩
      · exact absurd heq (by decide)
      · rw [show alookup csOnce.registry "cfg" = (none : Option (Entry String))
            from rfl] at hl
        exact Option.noConfusion hl)
    rfl

/-- C7: for a key registered with `evaluate_once = False`, uncached and
unreachable from its own dependencies, every sequence of `n` successful
sequential lookups invokes the resolver exactly `n` times, and the key
is never written to the cache (the registry is untouched as well). -/
theorem c7_no_cache_reexecutes (k : κ) (r : Resolver κ) (fuel : Nat) :
    ∀ (n : Nat) (s s2 : Store κ) (trs : List κ),
      alookup s.cache k = none →
      alookup s.registry k = some (Entry.resolver r false) →
      (∀ d ∈ get_resolver_dependencies r, ¬ Reaches s.registry d k) →
      lookup_seq fuel k n s = (s2, trs, true) →
      trs.count k = n ∧ alookup s2.cache k = none ∧ s2.registry = s.registry := by
  intro n
  induction n with
  | zero =>
    intro s s2 trs hc hr hcyc hrun
    simp only [lookup_seq, Prod.mk.injEq] at hrun
    obtain ⟨h1, h2, _⟩ := hrun
    subst h1
    subst h2
    simp [hc]
  | succ n ih =>
    intro s s2 trs hc hr hcyc hrun
    rcases hg : getitem fuel s k with ⟨res, s', tr⟩
    rcases hseq : lookup_seq fuel k n s' with ⟨s3, trs3, ok3⟩
    simp only [lookup_seq, hg, hseq, Prod.mk.injEq] at hrun
    obtain ⟨h1, h2, h3⟩ := hrun
    have hok : res.isOk = true ∧ ok3 = true := by
      rw [← Bool.and_eq_true]
      exact h3
    rcases res with e | v
    · exact Bool.noConfusion hok.1
    · have honce := getitem_no_cache_once fuel s k r v s' tr hc hr hcyc hg
      obtain ⟨hcnt, hnone, hregeq⟩ := honce
      have hr' : alookup s'.registry k = some (Entry.resolver r false) := by
        rw [hregeq]; exact hr
      have hcyc' : ∀ d ∈ get_resolver_dependencies r, ¬ Reaches s'.registry d k := by
        rw [hregeq]; exact hcyc
      have hseq' : lookup_seq fuel k n s' = (s3, trs3, true) := by
        rw [hseq, hok.2]
      obtain ⟨ihc, ihn, ihr⟩ := ih s' s3 trs3 hnone hr' hcyc' hseq'
      subst h1
      subst h2
      refine ⟨?_, ihn, ihr.trans hregeq⟩
      rw [List.count_append, hcnt, ihc]
      omega

/-- Witness for C7: two sequential lookups in `csEach` run the resolver
twice and cache nothing. -/
theorem c7_witness :
    (["k", "k"] : List String).count "k" = 2 ∧
    alookup csEach.cache "k" = none ∧
    csEach.registry = csEach.registry :=
  c7_no_cache_reexecutes "k" crOnce 3 2 csEach csEach ["k", "k"] rfl rfl
    (by
      intro d hd
      rw [show get_resolver_dependencies crOnce = ["cfg"] from rfl] at hd
      simp at hd
      subst hd
      intro h
      rcases reaches_inv h with heq | ⟨r', eo', m, hl, _, _⟩
      · exact absurd heq (by decide)
      · rw [show alookup csEach.registry "cfg" = (none : Option (Entry String))
            from rfl] at hl
        exact Option.noConfusion hl)
    rfl

/-- C10: the invariant `dom(cache) ⊆ dom(registry)` holds for the empty
store and is preserved by `register_value` (writes both), by
`register_resolver` (writes only the registry), by every lookup (which
caches only keys found in the registry), and by the reset operation
(which clears both). -/
theorem c10_cache_subset_registry :
    CacheSubRegistry (emptyStore : Store κ) ∧
    (∀ (s : Store κ) (k : κ) (v : PyVal κ), CacheSubRegistry s →
      CacheSubRegistry (register_value s k v).2) ∧
    (∀ (s : Store κ) (k : κ) (r : Resolver κ) (eo : Bool), CacheSubRegistry s →
      CacheSubRegistry (register_resolver s k r eo).2) ∧
    (∀ (fuel : Nat) (s : Store κ) (j : κ), CacheSubRegistry s →
      CacheSubRegistry ((getitem fuel s j).2.1)) ∧
    (∀ s : Store κ, CacheSubRegistry (reset_for_testing s)) := by
  refine ⟨?_, ?_, ?_, ?_, ?_⟩
  · intro k v h
    exact Option.noConfusion h
  · intro s k v hs
    unfold register_value raise_if_key_already_registered
    rcases hk : alookup s.registry k with _ | e
    · intro k' v' h'
      by_cases hkk : k' = k
      · exact ⟨Entry.value v, by rw [alookup_cons, if_pos hkk]⟩
      · have h'' : alookup s.cache k' = some v' := by
          have hred : alookup ((k, v) :: s.cache) k' = some v' := h'
          rw [alookup_cons, if_neg hkk] at hred
          exact hred
        obtain ⟨e', he'⟩ := hs k' v' h''
        exact ⟨e', by rw [alookup_cons, if_neg hkk]; exact he'⟩
    · exact hs
  · intro s k r eo hs
    unfold register_resolver raise_if_key_already_registered
    rcases hk : alookup s.registry k with _ | e
    · rcases hv : validate_resolver_signature k r.params with _ | e
      · rcases hcc : check_circular_dependencies s k r with _ | e
        · intro k' v' h'
          obtain ⟨e', he'⟩ := hs k' v' h'
          by_cases hkk : k' = k
          · exact ⟨Entry.resolver r eo, by rw [alookup_cons, if_pos hkk]⟩
          · exact ⟨e', by rw [alookup_cons, if_neg hkk]; exact he'⟩
        · exact hs
      · exact hs
    · exact hs
  · intro fuel s j hs k v h
    have hst := getitem_state fuel s j
    rcases hst.2 k with heq | ⟨r', v', hreg, hw⟩
    · rw [heq] at h
      obtain ⟨e, he⟩ := hs k v h
      exact ⟨e, by rw [hst.1]; exact he⟩
    · exact ⟨Entry.resolver r' true, by rw [hst.1]; exact hreg⟩
  · intro s k v h
    exact Option.noConfusion h

/-- Witness for C10: the invariant holds after a lookup in `csOnce`. -/
theorem c10_witness : CacheSubRegistry ((getitem 3 csOnce "k").2.1) :=
  c10_cache_subset_registry.2.2.2.1 3 csOnce "k"
    (fun k v h => Option.noConfusion h)

/-- C5 (spec-modelled, async support is absent from `src/`): a
synchronous lookup reaching a key registered with an asynchronous
resolver fails with `AsyncDependencyError` naming the function, the
parameter and the dependency key; the synchronous caller never receives
any value, in particular no unresolved awaitable. -/
theorem c5_async_sync_boundary (fname pname : String)
    (reg : List (String × AsyncEntry String)) (k : String)
    (f : Unit → PyVal String) (eo : Bool)
    (h : alookup reg k = some (AsyncEntry.asyncResolver f eo)) :
    sync_resolve fname pname reg k =
      .error (.asyncDependency fname pname k) ∧
    (∀ v : PyVal String, sync_resolve fname pname reg k ≠ .ok v) ∧
    async_err_message (.asyncDependency fname pname k) =
      "Cannot resolve async dependency " ++ k ++ " for parameter " ++ pname
        ++ " of function " ++ fname ++ ". Use the async decorator instead." := by
  unfold sync_resolve
  rw [h]
  exact ⟨rfl, fun v hv => Except.noConfusion hv, rfl⟩

/-- Witness for C5 at the concrete async registry. -/
theorem c5_witness :
    sync_resolve "handler" "db" casyncReg "db" =
      .error (.asyncDependency "handler" "db" "db") ∧
    (∀ v : PyVal String, sync_resolve "handler" "db" casyncReg "db" ≠ .ok v) ∧
    async_err_message (.asyncDependency "handler" "db" "db") =
      "Cannot resolve async dependency " ++ "db" ++ " for parameter " ++ "db"
        ++ " of function " ++ "handler" ++ ". Use the async decorator instead." :=
  c5_async_sync_boundary "handler" "db" casyncReg "db" (fun _ => PyVal.obj 5)
    false rfl

end Injectipy


